import Mathlib

/-!
Verification of the rdxusb host runtime against its natural-language
specification.

The definitions below are shallow embeddings of the Rust sources:
- rdxusb-protocol/src/lib.rs : wire and public packet types with their
  conversions;
- src/host.rs : RdxUsbFsHost session open, the inbound bulk pump and the
  write poller;
- src/event_loop.rs : the handle registry, open/close/read/write entry
  points and hotplug dispatch;
- src/c_api.rs : the C ABI surface.

Machine integers are modelled as Nat (u8/u16/u32/u64) and Int (the i32
handles); byte arrays as List Nat. The fixed array lengths of the Rust
types ([u8; 48] payloads, [u8; 64] buffers) are carried as explicit length
hypotheses where a theorem needs them. Stateful registry code is embedded
as explicit state passing over an EventLoopState value; the HashMap of the
registry is modelled as an association list in insertion order.
-/

/-! General helper instances and list lemmas. -/

instance {ε α : Type} [DecidableEq ε] [DecidableEq α] : DecidableEq (Except ε α) := fun a b =>
  match a, b with
  | .ok a, .ok b => decidable_of_iff (a = b) (by simp)
  | .ok _, .error _ => isFalse (fun h => Except.noConfusion h)
  | .error _, .ok _ => isFalse (fun h => Except.noConfusion h)
  | .error e, .error f => decidable_of_iff (e = f) (by simp)

/-- A list equals its first k elements followed by padding zeroes, provided
every element from position k on is zero. -/
lemma take_append_replicate_getD (l : List Nat) (k : Nat) (hk : k ≤ l.length)
    (hz : ∀ i, i < l.length → k ≤ i → l.getD i 0 = 0) :
    l.take k ++ List.replicate (l.length - k) 0 = l := by
  induction l generalizing k with
  | nil => simp
  | cons a t ih =>
    cases k with
    | zero =>
      have ha : a = 0 := by
        have := hz 0 (by simp) (Nat.zero_le _)
        simpa [List.getD_cons_zero] using this
      have ht : List.replicate t.length 0 = t := by
        have := ih 0 (Nat.zero_le _) (fun i hi _ => by
          have := hz (i + 1) (by simpa using Nat.succ_lt_succ hi) (Nat.zero_le _)
          simpa [List.getD_cons_succ] using this)
        simpa using this
      simp only [List.take_zero, List.nil_append, List.length_cons, Nat.sub_zero,
        List.replicate_succ]
      rw [ha, ht]
    | succ k =>
      simp only [List.take_succ_cons, List.cons_append, List.length_cons, Nat.succ_sub_succ]
      congr 1
      exact ih k (Nat.le_of_succ_le_succ (by simpa using hk)) (fun i hi hki => by
        have := hz (i + 1) (by simpa using Nat.succ_lt_succ hi) (Nat.succ_le_succ hki)
        simpa [List.getD_cons_succ] using this)

/-!
Frame codec, from rdxusb-protocol/src/lib.rs.
-/

/-- Wire packet `RdxUsbFsPacket` (rdxusb-protocol/src/lib.rs, lines 25-40).
`data` models the `[u8; 48]` payload; theorems that depend on the fixed
array length carry `data.length = 48` as a hypothesis. -/
structure RdxUsbFsPacket where
  timestamp_ns : Nat
  arb_id : Nat
  dlc : Nat
  channel : Nat
  flags : Nat
  data : List Nat
deriving DecidableEq, Repr, Inhabited

/-- Public packet `RdxUsbPacket` (rdxusb-protocol/src/lib.rs, lines 43-58).
`data` models the `[u8; 64]` payload. -/
structure RdxUsbPacket where
  timestamp_ns : Nat
  arb_id : Nat
  dlc : Nat
  channel : Nat
  flags : Nat
  data : List Nat
deriving DecidableEq, Repr, Inhabited

/-- Conversion `impl From<RdxUsbFsPacket> for RdxUsbPacket`
(rdxusb-protocol/src/lib.rs, lines 60-73): `data[..48]` is filled from the
wire payload and the remaining 16 bytes stay zero. For a well-formed wire
packet (`data.length = 48`) this is exactly the source's
`copy_from_slice` into a zeroed `[u8; 64]`. -/
def RdxUsbPacket.from_fs (value : RdxUsbFsPacket) : RdxUsbPacket :=
  { timestamp_ns := value.timestamp_ns
    arb_id := value.arb_id
    dlc := value.dlc
    channel := value.channel
    flags := value.flags
    data := value.data ++ List.replicate 16 0 }

/-- Conversion `impl TryFrom<RdxUsbPacket> for RdxUsbFsPacket`
(rdxusb-protocol/src/lib.rs, lines 75-93): fails returning the original
packet when `dlc > 48`; otherwise copies the first `dlc` payload bytes
into a zeroed `[u8; 48]`. -/
def RdxUsbFsPacket.try_from (value : RdxUsbPacket) : Except RdxUsbPacket RdxUsbFsPacket :=
  if value.dlc > 48 then .error value
  else
    .ok { timestamp_ns := value.timestamp_ns
          arb_id := value.arb_id
          dlc := value.dlc
          channel := value.channel
          flags := value.flags
          data := value.data.take value.dlc ++ List.replicate (48 - value.dlc) 0 }

/-! Claim C5. -/

/-- C5: the public-to-wire conversion errors exactly when `dlc > 48`
(returning the offending packet), and on success it preserves
`timestamp_ns`, `arb_id`, `dlc`, `channel`, `flags` and the first `dlc`
payload bytes, producing a 48-byte wire payload. -/
theorem try_from_err_iff_dlc_gt_48 (p : RdxUsbPacket) (hWF : p.data.length = 64) :
    ((∃ w, RdxUsbFsPacket.try_from p = .ok w) ↔ p.dlc ≤ 48) ∧
    (p.dlc > 48 → RdxUsbFsPacket.try_from p = .error p) ∧
    (∀ w, RdxUsbFsPacket.try_from p = .ok w →
      w.timestamp_ns = p.timestamp_ns ∧ w.arb_id = p.arb_id ∧ w.dlc = p.dlc ∧
      w.channel = p.channel ∧ w.flags = p.flags ∧
      w.data.take p.dlc = p.data.take p.dlc ∧ w.data.length = 48) := by
  by_cases h : p.dlc > 48
  · have he : RdxUsbFsPacket.try_from p = .error p := by
      unfold RdxUsbFsPacket.try_from
      rw [if_pos h]
    refine ⟨?_, fun _ => he, ?_⟩
    · constructor
      · rintro ⟨w, hw⟩
        rw [he] at hw
        exact Except.noConfusion hw
      · intro hle
        omega
    · intro w hw
      rw [he] at hw
      exact Except.noConfusion hw
  · have hle : p.dlc ≤ 48 := Nat.not_lt.mp h
    have hok : RdxUsbFsPacket.try_from p =
        .ok { timestamp_ns := p.timestamp_ns, arb_id := p.arb_id, dlc := p.dlc,
              channel := p.channel, flags := p.flags,
              data := p.data.take p.dlc ++ List.replicate (48 - p.dlc) 0 } := by
      unfold RdxUsbFsPacket.try_from
      rw [if_neg h]
    have hlen : (p.data.take p.dlc).length = p.dlc := by
      rw [List.length_take, hWF]
      omega
    refine ⟨⟨fun _ => hle, fun _ => ⟨_, hok⟩⟩, fun hgt => absurd hgt h, ?_⟩
    intro w hw
    rw [hok] at hw
    have hw2 := Except.ok.inj hw
    subst hw2
    refine ⟨rfl, rfl, rfl, rfl, rfl, ?_, ?_⟩
    · rw [List.take_append_of_le_length (by rw [hlen]), List.take_take]
      simp
    · simp only [List.length_append, List.length_replicate, hlen]
      omega

/-- Witness for C5 at a concrete public packet with `dlc = 3`. -/
def pktC5 : RdxUsbPacket :=
  { timestamp_ns := 7, arb_id := 5, dlc := 3, channel := 1, flags := 0
    data := List.replicate 64 9 }

theorem try_from_err_iff_dlc_gt_48_witness :
    ((∃ w, RdxUsbFsPacket.try_from pktC5 = .ok w) ↔ pktC5.dlc ≤ 48) ∧
    (pktC5.dlc > 48 → RdxUsbFsPacket.try_from pktC5 = .error pktC5) ∧
    (∀ w, RdxUsbFsPacket.try_from pktC5 = .ok w →
      w.timestamp_ns = pktC5.timestamp_ns ∧ w.arb_id = pktC5.arb_id ∧ w.dlc = pktC5.dlc ∧
      w.channel = pktC5.channel ∧ w.flags = pktC5.flags ∧
      w.data.take pktC5.dlc = pktC5.data.take pktC5.dlc ∧ w.data.length = 48) :=
  try_from_err_iff_dlc_gt_48 pktC5 (by rfl)

/-! Claim C1. -/

/-- Wire packet with `dlc = 49`: the round trip through the public type
rejects it instead of returning it unchanged. -/
def fsPktHighDlc : RdxUsbFsPacket :=
  { timestamp_ns := 0, arb_id := 0, dlc := 49, channel := 0, flags := 0
    data := List.replicate 48 0 }

/-- Wire packet with a nonzero payload byte at an index at or beyond `dlc`:
the round trip zeroes that byte, so it does not return the packet
unchanged. -/
def fsPktDirtyTail : RdxUsbFsPacket :=
  { timestamp_ns := 0, arb_id := 0, dlc := 0, channel := 0, flags := 0
    data := 1 :: List.replicate 47 0 }

/-- Counterexample to C1 as stated: the wire-to-public-to-wire round trip
is not `Ok(F)` for a frame with `dlc = 49` (the conversion back fails),
nor for a frame whose payload has a nonzero byte at an index at or beyond
`dlc` (the byte is zeroed on the way back). -/
theorem roundtrip_not_identity_cex :
    RdxUsbFsPacket.try_from (RdxUsbPacket.from_fs fsPktHighDlc) ≠ .ok fsPktHighDlc ∧
    RdxUsbFsPacket.try_from (RdxUsbPacket.from_fs fsPktDirtyTail) ≠ .ok fsPktDirtyTail := by
  decide

/-- C1 (amended): the round trip `try_from (from_fs F)` returns `Ok(F)`
for every well-formed wire frame F whose `dlc` is at most 48 and whose
payload bytes at indexes at or beyond `dlc` are zero. Frames with
`dlc > 48` are rejected by the conversion back, and nonzero payload bytes
at indexes at or beyond `dlc` are zeroed, so the identity cannot extend to
them. -/
theorem roundtrip_identity_on_canonical (f : RdxUsbFsPacket) (h48 : f.data.length = 48)
    (hdlc : f.dlc ≤ 48) (hz : ∀ i, i < 48 → f.dlc ≤ i → f.data.getD i 0 = 0) :
    RdxUsbFsPacket.try_from (RdxUsbPacket.from_fs f) = .ok f := by
  have hdata : (f.data ++ List.replicate 16 0).take f.dlc ++ List.replicate (48 - f.dlc) 0
      = f.data := by
    rw [List.take_append_of_le_length (by omega)]
    have h1 : 48 - f.dlc = f.data.length - f.dlc := by omega
    rw [h1]
    exact take_append_replicate_getD f.data f.dlc (by omega)
      (fun i hi hki => hz i (by omega) hki)
  simp only [RdxUsbPacket.from_fs, RdxUsbFsPacket.try_from]
  rw [if_neg (Nat.not_lt.mpr hdlc), hdata]

/-- Witness for the amended C1 at a concrete canonical wire frame. -/
def fsPktC1 : RdxUsbFsPacket :=
  { timestamp_ns := 11, arb_id := 0x80000123, dlc := 2, channel := 0, flags := 0
    data := 9 :: 8 :: List.replicate 46 0 }

theorem roundtrip_identity_on_canonical_witness :
    RdxUsbFsPacket.try_from (RdxUsbPacket.from_fs fsPktC1) = .ok fsPktC1 :=
  roundtrip_identity_on_canonical fsPktC1 (by rfl) (by decide) (by decide)

/-! Claim C8. -/

/-- C8: for every public frame with `dlc` at most 48, the wire frame
produced by the conversion has zero payload bytes at every index at or
beyond `dlc`: only the first `dlc` bytes are copied and the remainder of
the 48-byte wire payload is zeroed. -/
theorem try_from_zero_pads_tail (p : RdxUsbPacket) (hdlc : p.dlc ≤ 48) :
    ∃ w, RdxUsbFsPacket.try_from p = .ok w ∧
      w.data = p.data.take p.dlc ++ List.replicate (48 - p.dlc) 0 ∧
      ∀ i, p.dlc ≤ i → w.data.getD i 0 = 0 := by
  unfold RdxUsbFsPacket.try_from
  simp only [if_neg (Nat.not_lt.mpr hdlc)]
  refine ⟨_, rfl, rfl, ?_⟩
  intro i hi
  have hlen : (p.data.take p.dlc).length ≤ i := by
    rw [List.length_take]
    omega
  rw [List.getD_eq_getElem?_getD, List.getElem?_append_right hlen, List.getElem?_replicate]
  split <;> rfl

theorem try_from_zero_pads_tail_witness :
    ∃ w, RdxUsbFsPacket.try_from pktC5 = .ok w ∧
      w.data = pktC5.data.take pktC5.dlc ++ List.replicate (48 - pktC5.dlc) 0 ∧
      ∀ i, pktC5.dlc ≤ i → w.data.getD i 0 = 0 :=
  try_from_zero_pads_tail pktC5 (by decide)

/-!
Queues and the per-handle open-device state, from src/host.rs and
src/event_loop.rs.

AsyncHeapRb of the source is a bounded SPSC ring buffer; it is modelled as
a capacity plus a FIFO list of items. try_push is ringbuf's non-blocking
push, which returns the rejected item when the buffer is full; try_pop
pops the oldest item.
-/

/-- Bounded FIFO queue of wire packets, modelling
AsyncHeapRb of RdxUsbFsPacket (src/host.rs). -/
structure FsQueue where
  cap : Nat
  items : List RdxUsbFsPacket
deriving DecidableEq, Repr, Inhabited

/-- Non-blocking push: fails returning the item when the buffer is full
(ringbuf try_push, used by RdxUsbFsWriter.try_send, src/host.rs line 196). -/
def FsQueue.try_push (q : FsQueue) (x : RdxUsbFsPacket) : Except RdxUsbFsPacket FsQueue :=
  if q.items.length < q.cap then .ok { cap := q.cap, items := q.items ++ [x] }
  else .error x

/-- Non-blocking pop of the oldest item (ringbuf try_pop, used by
RdxUsbFsChannel.try_read, src/host.rs line 270). -/
def FsQueue.try_pop (q : FsQueue) : Option (RdxUsbFsPacket × FsQueue) :=
  match q.items with
  | [] => none
  | x :: rest => some (x, { cap := q.cap, items := rest })

/-- Error type of OpenDevice try_read (src/event_loop.rs, lines 53-56). -/
inductive DeviceIOError where
  | ChannelOutOfRange
  | NoData
deriving DecidableEq, Repr

/-- OpenDevice (src/event_loop.rs, lines 68-73): the per-channel inbound
consumer queues (DeviceChannels::FsDevice) and the outbound writer queue
(Writer::FsDevice). device_id and protocol are omitted: no claim touches
them. -/
structure OpenDev where
  channels : List FsQueue
  txq : FsQueue
deriving DecidableEq, Repr, Inhabited

/-- OpenDevice::try_read (src/event_loop.rs, lines 76-86): range-checks the
channel index, then pops one wire packet and converts it to a public
packet. -/
def OpenDev.try_read (od : OpenDev) (channel_idx : Nat) :
    Except DeviceIOError (RdxUsbPacket × OpenDev) :=
  if od.channels.length ≤ channel_idx then .error .ChannelOutOfRange
  else
    match (od.channels.getD channel_idx default).try_pop with
    | none => .error .NoData
    | some (p, q') =>
      .ok (RdxUsbPacket.from_fs p, { od with channels := od.channels.set channel_idx q' })

/-- OpenDevice::try_write (src/event_loop.rs, lines 97-106): converts the
public packet to a wire packet (the question-mark operator propagates the
oversize packet as the error) and then pushes it on the outbound queue;
a full queue returns the packet converted back to public form. -/
def OpenDev.try_write (od : OpenDev) (packet : RdxUsbPacket) : Except RdxUsbPacket OpenDev :=
  match RdxUsbFsPacket.try_from packet with
  | .error e => .error e
  | .ok w =>
    match od.txq.try_push w with
    | .error s => .error (RdxUsbPacket.from_fs s)
    | .ok q' => .ok { od with txq := q' }

/-!
The event-loop registry, from src/event_loop.rs. The process-global
HashMap<i32, Device> is modelled as an association list in insertion
order (HashMap iteration order is unspecified in Rust; the claims proved
below do not depend on the order, and counterexamples are chosen so that
only a single entry can match). The tokio pieces of Device (poller task,
shutdown Notify) have no registry-observable state and are omitted; the
watch channel is modelled by its latest value.
-/

/-- Error enum EventLoopError (src/event_loop.rs, lines 24-34). -/
inductive EventLoopError where
  | EventLoopCrashed
  | CannotListDevices
  | DeviceIterInvalid
  | DeviceNotOpened
  | DeviceNotConnected
  | ChannelOutOfRange
deriving DecidableEq, Repr

/-- Numeric codes of EventLoopError (src/event_loop.rs repr(i32) values and
the ERR constants, lines 24-44). -/
def EventLoopError.code : EventLoopError → Int
  | .EventLoopCrashed => -100
  | .CannotListDevices => -101
  | .DeviceIterInvalid => -102
  | .DeviceNotOpened => -200
  | .DeviceNotConnected => -201
  | .ChannelOutOfRange => -202

/-- The parts of nusb DeviceInfo that the registry inspects: vendor id,
product id and serial number. -/
structure DeviceInfoM where
  vid : Nat
  pid : Nat
  serial : Option String
deriving DecidableEq, Repr

/-- Device slot (src/event_loop.rs, lines 121-129): match criteria, the
currently connected OpenDevice, and the watch channel's latest published
descriptor. -/
structure RegDevice where
  vid : Nat
  pid : Nat
  serial_number : Option String
  handle : Option OpenDev
  watch : Option DeviceInfoM
deriving DecidableEq, Repr, Inhabited

/-- Device::matches (src/event_loop.rs, lines 132-140): a slot with a
serial requires an equal requested serial; a slot without a serial matches
any request. -/
def RegDevice.matches (d : RegDevice) (vid pid : Nat) (serial_number : Option String) : Bool :=
  d.vid == vid && d.pid == pid &&
    (match d.serial_number with
     | some s => match serial_number with
       | some s2 => s2 == s
       | none => false
     | none => true)

/-- Device::matches_device_info (src/event_loop.rs, lines 141-147). -/
def RegDevice.matches_device_info (d : RegDevice) (info : DeviceInfoM) : Bool :=
  d.vid == info.vid && d.pid == info.pid &&
    (match d.serial_number with
     | some s => match info.serial with
       | some ins => s == ins
       | none => false
     | none => true)

/-- EventLoop registry state (src/event_loop.rs, lines 150-154): the slot
table and the monotone handle counter. -/
structure EventLoopState where
  devices : List (Int × RegDevice)
  next_handle : Int
deriving DecidableEq, Repr

/-- HashMap get on the slot table. -/
def lookupDevice (s : EventLoopState) (h : Int) : Option RegDevice :=
  (s.devices.find? (fun p => p.1 == h)).map Prod.snd

/-- EventLoop::acquire_open_device (src/event_loop.rs, lines 180-184):
unknown handle gives DeviceNotOpened, a known slot without a connected
session gives DeviceNotConnected. -/
def acquire_open_device (s : EventLoopState) (h : Int) : Except EventLoopError OpenDev :=
  match lookupDevice s h with
  | none => .error .DeviceNotOpened
  | some d =>
    match d.handle with
    | none => .error .DeviceNotConnected
    | some od => .ok od

/-- Write back the mutated OpenDevice of the slot keyed h (the source
mutates it in place through the &mut returned by acquire_open_device). -/
def replaceOpenDev : List (Int × RegDevice) → Int → OpenDev → List (Int × RegDevice)
  | [], _, _ => []
  | p :: rest, h, od =>
    if p.1 == h then (p.1, { p.2 with handle := some od }) :: rest
    else p :: replaceOpenDev rest h od

/-- State after writing back a mutated OpenDevice. -/
def updateOpenDev (s : EventLoopState) (h : Int) (od : OpenDev) : EventLoopState :=
  { s with devices := replaceOpenDev s.devices h od }

/-- Loop body of write_packets (src/event_loop.rs, lines 358-365): try each
packet in order, stop at the first failure, count successes. -/
def write_packets_loop : List RdxUsbPacket → OpenDev → Nat × OpenDev
  | [], od => (0, od)
  | p :: ps, od =>
    match od.try_write p with
    | .ok od' =>
      let r := write_packets_loop ps od'
      (r.1 + 1, r.2)
    | .error _ => (0, od)

/-- write_packets (src/event_loop.rs, lines 353-368). -/
def write_packets (s : EventLoopState) (h : Int) (packets : List RdxUsbPacket) :
    Except EventLoopError (Nat × EventLoopState) :=
  match acquire_open_device s h with
  | .error e => .error e
  | .ok od =>
    let r := write_packets_loop packets od
    .ok (r.1, updateOpenDev s h r.2)

/-- Loop body of read_packets (src/event_loop.rs, lines 338-349): fill up
to max_packets output slots, return the error on ChannelOutOfRange, stop
early on NoData. -/
def read_packets_loop : OpenDev → Nat → Nat → Except EventLoopError (List RdxUsbPacket × OpenDev)
  | od, _, 0 => .ok ([], od)
  | od, channel, m + 1 =>
    match od.try_read channel with
    | .ok (p, od') =>
      match read_packets_loop od' channel m with
      | .ok (ps, od'') => .ok (p :: ps, od'')
      | .error e => .error e
    | .error .ChannelOutOfRange => .error .ChannelOutOfRange
    | .error .NoData => .ok ([], od)

/-- read_packets (src/event_loop.rs, lines 332-351); the returned Nat is
packets_read. -/
def read_packets (s : EventLoopState) (h : Int) (channel : Nat) (max_packets : Nat) :
    Except EventLoopError (Nat × List RdxUsbPacket × EventLoopState) :=
  match acquire_open_device s h with
  | .error e => .error e
  | .ok od =>
    match read_packets_loop od channel max_packets with
    | .error e => .error e
    | .ok (ps, od') => .ok (ps.length, ps, updateOpenDev s h od')

/-- close_device (src/event_loop.rs, lines 370-376): unknown handle is a
no-op; otherwise the slot is removed (its shutdown Notify has no
registry-observable state). Always returns 0. -/
def close_device (s : EventLoopState) (h : Int) : Int × EventLoopState :=
  match lookupDevice s h with
  | none => (0, s)
  | some _ => (0, { s with devices := s.devices.filter (fun p => !(p.1 == h)) })

/-- close_all_devices (src/event_loop.rs, lines 378-385): retain false on
every entry. -/
def close_all_devices (s : EventLoopState) : EventLoopState :=
  { s with devices := [] }

/-- open_device (src/event_loop.rs, lines 296-330): return the handle of
the first matching slot if any (after a rescan, which does not change the
registry), otherwise allocate the next handle, spawn the poller and insert
a fresh slot. nusb::list_devices is modelled as succeeding; a listing
failure only changes the return value into an error, not the registry
mutation. -/
def open_device (s : EventLoopState) (vid pid : Nat) (serial_number : Option String)
    (_close_on_dc : Bool) : Int × EventLoopState :=
  match s.devices.find? (fun p => p.2.matches vid pid serial_number) with
  | some p => (p.1, s)
  | none =>
    let handle := s.next_handle
    (handle,
      { devices := s.devices ++
          [(handle, { vid := vid, pid := pid, serial_number := serial_number,
                      handle := none, watch := none })]
        next_handle := s.next_handle + 1 })

/-! Claim C4. -/

/-- Success projection of an Except value. -/
def exOk {ε α : Type} : Except ε α → Option α
  | .ok a => some a
  | .error _ => none

lemma try_from_error_imp (p : RdxUsbPacket) (e : RdxUsbPacket)
    (h : RdxUsbFsPacket.try_from p = .error e) : p.dlc > 48 ∧ e = p := by
  unfold RdxUsbFsPacket.try_from at h
  by_cases hc : p.dlc > 48
  · rw [if_pos hc] at h
    exact ⟨hc, (Except.error.inj h).symm⟩
  · rw [if_neg hc] at h
    exact Except.noConfusion h

lemma try_from_ok_dlc (p : RdxUsbPacket) (w : RdxUsbFsPacket)
    (h : RdxUsbFsPacket.try_from p = .ok w) : p.dlc ≤ 48 := by
  unfold RdxUsbFsPacket.try_from at h
  by_cases hc : p.dlc > 48
  · rw [if_pos hc] at h
    exact Except.noConfusion h
  · exact Nat.not_lt.mp hc

lemma try_push_error_imp (q : FsQueue) (x e : RdxUsbFsPacket)
    (h : q.try_push x = .error e) : q.cap ≤ q.items.length := by
  unfold FsQueue.try_push at h
  by_cases hc : q.items.length < q.cap
  · rw [if_pos hc] at h
    exact Except.noConfusion h
  · exact Nat.not_lt.mp hc

lemma try_push_ok_imp (q : FsQueue) (x : RdxUsbFsPacket) (q' : FsQueue)
    (h : q.try_push x = .ok q') :
    q'.cap = q.cap ∧ q'.items = q.items ++ [x] := by
  unfold FsQueue.try_push at h
  by_cases hc : q.items.length < q.cap
  · rw [if_pos hc] at h
    have := (Except.ok.inj h).symm
    subst this
    exact ⟨rfl, rfl⟩
  · rw [if_neg hc] at h
    exact Except.noConfusion h

lemma try_write_error_imp (od : OpenDev) (p : RdxUsbPacket) (e : RdxUsbPacket)
    (h : od.try_write p = .error e) :
    p.dlc > 48 ∨ od.txq.cap ≤ od.txq.items.length := by
  unfold OpenDev.try_write at h
  cases hf : RdxUsbFsPacket.try_from p with
  | error e2 =>
    exact Or.inl (try_from_error_imp p e2 hf).1
  | ok w =>
    simp only [hf] at h
    cases hp : od.txq.try_push w with
    | error s => exact Or.inr (try_push_error_imp _ _ _ hp)
    | ok q' =>
      simp only [hp] at h
      exact Except.noConfusion h

lemma try_write_ok_imp (od : OpenDev) (p : RdxUsbPacket) (od' : OpenDev)
    (h : od.try_write p = .ok od') :
    ∃ w, RdxUsbFsPacket.try_from p = .ok w ∧ p.dlc ≤ 48 ∧
      od'.channels = od.channels ∧ od'.txq.cap = od.txq.cap ∧
      od'.txq.items = od.txq.items ++ [w] := by
  unfold OpenDev.try_write at h
  cases hf : RdxUsbFsPacket.try_from p with
  | error e2 =>
    simp only [hf] at h
    exact Except.noConfusion h
  | ok w =>
    simp only [hf] at h
    cases hp : od.txq.try_push w with
    | error s =>
      simp only [hp] at h
      exact Except.noConfusion h
    | ok q' =>
      simp only [hp] at h
      have hq := try_push_ok_imp _ _ _ hp
      have h2 := (Except.ok.inj h).symm
      subst h2
      exact ⟨w, rfl, try_from_ok_dlc p w hf, rfl, hq.1, hq.2⟩

/-- Behaviour of the write_packets loop: it writes an in-order prefix of
the packet list, every written packet has dlc at most 48, the outbound
queue receives exactly the wire conversions of that prefix in order, and
if the loop stopped before the end then the first unwritten packet is
oversize or the queue is full (and unchanged by the rejected packet). -/
lemma write_packets_loop_spec (ps : List RdxUsbPacket) (od : OpenDev) :
    (write_packets_loop ps od).1 ≤ ps.length ∧
    (write_packets_loop ps od).2.channels = od.channels ∧
    (write_packets_loop ps od).2.txq.cap = od.txq.cap ∧
    (∀ p ∈ ps.take (write_packets_loop ps od).1, p.dlc ≤ 48) ∧
    (write_packets_loop ps od).2.txq.items =
      od.txq.items ++ (ps.take (write_packets_loop ps od).1).filterMap
        (fun p => exOk (RdxUsbFsPacket.try_from p)) ∧
    (∀ hlt : (write_packets_loop ps od).1 < ps.length,
      (ps.get ⟨(write_packets_loop ps od).1, hlt⟩).dlc > 48 ∨
      (write_packets_loop ps od).2.txq.cap ≤ (write_packets_loop ps od).2.txq.items.length) := by
  induction ps generalizing od with
  | nil =>
    simp [write_packets_loop]
  | cons p t ih =>
    cases hw : od.try_write p with
    | error e =>
      have hred : write_packets_loop (p :: t) od = (0, od) := by
        simp [write_packets_loop, hw]
      rw [hred]
      refine ⟨Nat.zero_le _, rfl, rfl, by simp, by simp, ?_⟩
      intro hlt
      simpa using try_write_error_imp od p e hw
    | ok od' =>
      obtain ⟨w, hfrom, hdlc, hch, hcap, hitems⟩ := try_write_ok_imp od p od' hw
      have hred : write_packets_loop (p :: t) od =
          ((write_packets_loop t od').1 + 1, (write_packets_loop t od').2) := by
        simp [write_packets_loop, hw]
      obtain ⟨ih1, ih2, ih3, ih4, ih5, ih6⟩ := ih od'
      rw [hred]
      refine ⟨by simpa using Nat.succ_le_succ ih1, by rw [ih2, hch], by rw [ih3, hcap], ?_, ?_, ?_⟩
      · intro x hx
        rw [List.take_succ_cons] at hx
        rcases List.mem_cons.mp hx with hx | hx
        · subst hx
          exact hdlc
        · exact ih4 x hx
      · rw [List.take_succ_cons, List.filterMap_cons]
        have : exOk (RdxUsbFsPacket.try_from p) = some w := by
          rw [hfrom]
          rfl
        rw [this, ih5, hitems]
        simp
      · intro hlt
        have hlt2 : (write_packets_loop t od').1 < t.length := by
          simpa using hlt
        have := ih6 hlt2
        simpa using this

/-- C4: for a connected handle, write_packets walks the packet slice in
order, enqueuing the wire conversion of each packet on the outbound queue
until the first packet that is oversize (dlc > 48) or that meets a full
queue; it stops there and returns the number of packets enqueued. An
oversize packet is never placed in the outbound queue, and the queue is
unchanged by the rejected packet (the final queue contains exactly the
conversions of the written prefix). -/
theorem write_packets_correct (s : EventLoopState) (h : Int) (od : OpenDev)
    (ps : List RdxUsbPacket) (hacq : acquire_open_device s h = .ok od) :
    ∃ n od',
      write_packets s h ps = .ok (n, updateOpenDev s h od') ∧
      (n, od') = write_packets_loop ps od ∧
      n ≤ ps.length ∧
      od'.txq.cap = od.txq.cap ∧
      (∀ p ∈ ps.take n, p.dlc ≤ 48) ∧
      od'.txq.items = od.txq.items ++
        (ps.take n).filterMap (fun p => exOk (RdxUsbFsPacket.try_from p)) ∧
      (∀ hlt : n < ps.length,
        (ps.get ⟨n, hlt⟩).dlc > 48 ∨ od'.txq.cap ≤ od'.txq.items.length) := by
  obtain ⟨h1, _h2, h3, h4, h5, h6⟩ := write_packets_loop_spec ps od
  refine ⟨(write_packets_loop ps od).1, (write_packets_loop ps od).2, ?_, rfl, h1, h3, h4, h5, h6⟩
  unfold write_packets
  rw [hacq]

/-- Concrete open device and registry state for the C4 witness: one slot,
handle 0, connected, with an outbound queue of capacity 1. -/
def odC4 : OpenDev :=
  { channels := [], txq := { cap := 1, items := [] } }

def stC4 : EventLoopState :=
  { devices := [(0, { vid := 0x16d0, pid := 0x1278, serial_number := none,
                      handle := some odC4, watch := none })]
    next_handle := 1 }

/-- Packets for the C4 witness: one writable packet, then an oversize one. -/
def psC4 : List RdxUsbPacket :=
  [ { timestamp_ns := 0, arb_id := 3, dlc := 1, channel := 0, flags := 0
      data := List.replicate 64 2 },
    { timestamp_ns := 0, arb_id := 4, dlc := 49, channel := 0, flags := 0
      data := List.replicate 64 2 } ]

theorem write_packets_correct_witness :
    ∃ n od',
      write_packets stC4 0 psC4 = .ok (n, updateOpenDev stC4 0 od') ∧
      (n, od') = write_packets_loop psC4 odC4 ∧
      n ≤ psC4.length ∧
      od'.txq.cap = odC4.txq.cap ∧
      (∀ p ∈ psC4.take n, p.dlc ≤ 48) ∧
      od'.txq.items = odC4.txq.items ++
        (psC4.take n).filterMap (fun p => exOk (RdxUsbFsPacket.try_from p)) ∧
      (∀ hlt : n < psC4.length,
        (psC4.get ⟨n, hlt⟩).dlc > 48 ∨ od'.txq.cap ≤ od'.txq.items.length) :=
  write_packets_correct stC4 0 odC4 psC4 (by rfl)

/-! Claim C6. -/

lemma acquire_of_lookup_none (s : EventLoopState) (h : Int)
    (hl : lookupDevice s h = none) :
    acquire_open_device s h = .error .DeviceNotOpened := by
  unfold acquire_open_device
  rw [hl]

lemma lookup_close_none (s : EventLoopState) (h : Int) :
    lookupDevice (close_device s h).2 h = none := by
  cases hl : lookupDevice s h with
  | none =>
    simp only [close_device, hl]
  | some d =>
    simp only [close_device, hl]
    unfold lookupDevice
    rw [List.find?_eq_none.mpr]
    · rfl
    · intro x hx
      have := (List.mem_filter.mp hx).2
      simp only [Bool.not_eq_true'] at this
      simp [this]

lemma read_packets_not_opened (s : EventLoopState) (h : Int) (ch max : Nat)
    (hl : lookupDevice s h = none) :
    read_packets s h ch max = .error .DeviceNotOpened := by
  unfold read_packets
  rw [acquire_of_lookup_none s h hl]

lemma write_packets_not_opened (s : EventLoopState) (h : Int) (ps : List RdxUsbPacket)
    (hl : lookupDevice s h = none) :
    write_packets s h ps = .error .DeviceNotOpened := by
  unfold write_packets
  rw [acquire_of_lookup_none s h hl]

/-- C6: close_device always returns 0 (also on an unknown or already
closed handle, in which case the registry is unchanged), and after
close_device(h) the handle is gone, so every subsequent read_packets or
write_packets on h fails with DeviceNotOpened, whose ABI code is -200. -/
theorem close_device_spec (s : EventLoopState) (h : Int) (ch max : Nat)
    (ps : List RdxUsbPacket) :
    (close_device s h).1 = 0 ∧
    (lookupDevice s h = none → close_device s h = (0, s)) ∧
    lookupDevice (close_device s h).2 h = none ∧
    read_packets (close_device s h).2 h ch max = .error .DeviceNotOpened ∧
    write_packets (close_device s h).2 h ps = .error .DeviceNotOpened ∧
    EventLoopError.code .DeviceNotOpened = -200 := by
  refine ⟨?_, ?_, lookup_close_none s h, ?_, ?_, rfl⟩
  · cases hl : lookupDevice s h <;> simp [close_device, hl]
  · intro hl
    simp [close_device, hl]
  · exact read_packets_not_opened _ _ _ _ (lookup_close_none s h)
  · exact write_packets_not_opened _ _ _ (lookup_close_none s h)

/-- Concrete registry state for the C6 witness: one open slot, handle 0. -/
def stC6 : EventLoopState :=
  { devices := [(0, { vid := 0x16d0, pid := 0x1278, serial_number := none,
                      handle := some { channels := [{ cap := 2, items := [] }],
                                       txq := { cap := 2, items := [] } },
                      watch := none })]
    next_handle := 1 }

theorem close_device_spec_witness :
    (close_device stC6 0).1 = 0 ∧
    (lookupDevice stC6 0 = none → close_device stC6 0 = (0, stC6)) ∧
    lookupDevice (close_device stC6 0).2 0 = none ∧
    read_packets (close_device stC6 0).2 0 0 4 = .error .DeviceNotOpened ∧
    write_packets (close_device stC6 0).2 0 psC4 = .error .DeviceNotOpened ∧
    EventLoopError.code .DeviceNotOpened = -200 :=
  close_device_spec stC6 0 0 4 psC4

/-! Claim C9. -/

lemma acquire_ok_imp (s : EventLoopState) (h : Int) (od : OpenDev)
    (hacq : acquire_open_device s h = .ok od) :
    ∃ d, lookupDevice s h = some d ∧ d.handle = some od := by
  unfold acquire_open_device at hacq
  cases hl : lookupDevice s h with
  | none =>
    simp only [hl] at hacq
    exact Except.noConfusion hacq
  | some d =>
    simp only [hl] at hacq
    cases hh : d.handle with
    | none =>
      simp only [hh] at hacq
      exact Except.noConfusion hacq
    | some od2 =>
      simp only [hh] at hacq
      have := Except.ok.inj hacq
      subst this
      exact ⟨d, rfl, hh⟩

lemma replaceOpenDev_self (l : List (Int × RegDevice)) (h : Int) (od : OpenDev)
    (d : RegDevice) (hl : (l.find? (fun p => p.1 == h)).map Prod.snd = some d)
    (hd : d.handle = some od) :
    replaceOpenDev l h od = l := by
  induction l with
  | nil => simp at hl
  | cons p rest ih =>
    by_cases hph : (p.1 == h) = true
    · simp only [List.find?, hph, Option.map_some'] at hl
      obtain ⟨k, dev⟩ := p
      have hpd : dev = d := Option.some.inj hl
      subst hpd
      unfold replaceOpenDev
      rw [if_pos hph]
      have heta : ({ dev with handle := some od } : RegDevice) = dev := by
        cases dev
        simp_all
      rw [heta]
    · have hph2 : (p.1 == h) = false := by
        simpa using hph
      simp only [List.find?, hph2] at hl
      unfold replaceOpenDev
      rw [if_neg hph]
      rw [ih hl]

lemma updateOpenDev_self (s : EventLoopState) (h : Int) (od : OpenDev)
    (hacq : acquire_open_device s h = .ok od) :
    updateOpenDev s h od = s := by
  obtain ⟨d, hl, hd⟩ := acquire_ok_imp s h od hacq
  unfold updateOpenDev
  rw [replaceOpenDev_self s.devices h od d hl hd]

/-- C9: on a connected handle, read_packets with max_packets = 0 returns
success with zero packets read and an unchanged registry, even when the
channel index is out of range; ChannelOutOfRange (ABI code -202) is
produced only when at least one pop is attempted, i.e. when
max_packets is at least 1, because the range check sits inside the
per-packet loop. -/
theorem read_packets_empty_buffer (s : EventLoopState) (h : Int) (od : OpenDev)
    (ch : Nat) (hacq : acquire_open_device s h = .ok od) :
    read_packets s h ch 0 = .ok (0, [], s) ∧
    (od.channels.length ≤ ch →
      ∀ m, read_packets s h ch (m + 1) = .error .ChannelOutOfRange) ∧
    EventLoopError.code .ChannelOutOfRange = -202 := by
  refine ⟨?_, ?_, rfl⟩
  · have h0 : read_packets s h ch 0 = .ok (0, [], updateOpenDev s h od) := by
      unfold read_packets
      rw [hacq]
      rfl
    rw [updateOpenDev_self s h od hacq] at h0
    exact h0
  · intro hch m
    have htr : od.try_read ch = .error .ChannelOutOfRange := by
      unfold OpenDev.try_read
      rw [if_pos hch]
    have hloop : read_packets_loop od ch (m + 1) = .error .ChannelOutOfRange := by
      simp only [read_packets_loop, htr]
    simp only [read_packets, hacq, hloop]

/-- Concrete connected state for the C9 witness: the device reports no
channels, so channel index 3 is out of range. -/
def odC9 : OpenDev :=
  { channels := [], txq := { cap := 4, items := [] } }

def stC9 : EventLoopState :=
  { devices := [(2, { vid := 1, pid := 2, serial_number := some "serC9",
                      handle := some odC9, watch := none })]
    next_handle := 3 }

theorem read_packets_empty_buffer_witness :
    read_packets stC9 2 3 0 = .ok (0, [], stC9) ∧
    (odC9.channels.length ≤ 3 →
      ∀ m, read_packets stC9 2 3 (m + 1) = .error .ChannelOutOfRange) ∧
    EventLoopError.code .ChannelOutOfRange = -202 :=
  read_packets_empty_buffer stC9 2 odC9 3 (by rfl)

/-! Claim C7. -/

/-- Registry operations reachable from the C ABI that mutate the slot
table (rdxusb_open_device / rdxusb_close_device / rdxusb_close_all_devices
in src/c_api.rs, backed by src/event_loop.rs). -/
inductive RegOp where
  | openDev (vid pid : Nat) (serial_number : Option String) (close_on_dc : Bool)
  | closeDev (h : Int)
  | closeAll
deriving DecidableEq, Repr

/-- One registry operation: the new state, plus the returned handle for
open_device. -/
def stepOp (s : EventLoopState) : RegOp → EventLoopState × Option Int
  | .openDev vid pid ser dc =>
    let r := open_device s vid pid ser dc
    (r.2, some r.1)
  | .closeDev h => ((close_device s h).2, none)
  | .closeAll => (close_all_devices s, none)

/-- Run a sequence of registry operations from a state, collecting the
result of each operation in order. -/
def runOps (s : EventLoopState) : List RegOp → EventLoopState × List (Option Int)
  | [] => (s, [])
  | op :: ops =>
    let r := stepOp s op
    let rest := runOps r.1 ops
    (rest.1, r.2 :: rest.2)

/-- Initial registry state (EventLoop::new, src/event_loop.rs lines
157-169): empty slot table, handle counter 0. -/
def initEventLoop : EventLoopState := { devices := [], next_handle := 0 }

/-- A handle that was issued and later removed by close: absent from the
slot table but strictly below the allocation counter. -/
def handleRetired (s : EventLoopState) (h : Int) : Prop :=
  (∀ p ∈ s.devices, p.1 ≠ h) ∧ h < s.next_handle

lemma open_device_ret (s : EventLoopState) (vid pid : Nat) (ser : Option String) (dc : Bool) :
    ((open_device s vid pid ser dc).1 ∈ s.devices.map Prod.fst ∧
      (open_device s vid pid ser dc).2 = s) ∨
    ((open_device s vid pid ser dc).1 = s.next_handle ∧
      (open_device s vid pid ser dc).2.next_handle = s.next_handle + 1) := by
  unfold open_device
  cases hf : s.devices.find? (fun p => p.2.matches vid pid ser) with
  | some p =>
    left
    constructor
    · exact List.mem_map_of_mem Prod.fst (List.mem_of_find?_eq_some hf)
    · rfl
  | none =>
    right
    exact ⟨rfl, rfl⟩

lemma stepOp_next_handle_mono (s : EventLoopState) (op : RegOp) :
    s.next_handle ≤ (stepOp s op).1.next_handle := by
  cases op with
  | openDev vid pid ser dc =>
    simp only [stepOp]
    unfold open_device
    cases hf : s.devices.find? (fun p => p.2.matches vid pid ser) with
    | some p => exact le_refl _
    | none =>
      simp only
      omega
  | closeDev h =>
    simp only [stepOp]
    unfold close_device
    cases hl : lookupDevice s h with
    | none => exact le_refl _
    | some d => exact le_refl _
  | closeAll => exact le_refl _

lemma stepOp_retired (s : EventLoopState) (op : RegOp) (h : Int)
    (hr : handleRetired s h) : handleRetired (stepOp s op).1 h := by
  obtain ⟨hnz, hlt⟩ := hr
  cases op with
  | openDev vid pid ser dc =>
    simp only [stepOp]
    unfold open_device
    cases hf : s.devices.find? (fun p => p.2.matches vid pid ser) with
    | some p => exact ⟨hnz, hlt⟩
    | none =>
      simp only
      constructor
      · intro q hq
        rcases List.mem_append.mp hq with hq | hq
        · exact hnz q hq
        · have : q = (s.next_handle,
              ({ vid := vid, pid := pid, serial_number := ser,
                 handle := none, watch := none } : RegDevice)) := by
            simpa using hq
          rw [this]
          simp only
          omega
      · simp only
        omega
  | closeDev h2 =>
    simp only [stepOp]
    unfold close_device
    cases hl : lookupDevice s h2 with
    | none =>
      simp only [hl]
      exact ⟨hnz, hlt⟩
    | some d =>
      simp only [hl]
      refine ⟨?_, hlt⟩
      intro q hq
      exact hnz q (List.mem_of_mem_filter hq)
  | closeAll =>
    refine ⟨?_, hlt⟩
    intro q hq
    simp [stepOp, close_all_devices] at hq

lemma stepOp_never_returns_retired (s : EventLoopState) (op : RegOp) (h : Int)
    (hr : handleRetired s h) : (stepOp s op).2 ≠ some h := by
  obtain ⟨hnz, hlt⟩ := hr
  cases op with
  | openDev vid pid ser dc =>
    simp only [stepOp]
    intro hc
    have hret : (open_device s vid pid ser dc).1 = h := Option.some.inj hc
    rcases open_device_ret s vid pid ser dc with ⟨hm, _⟩ | ⟨he, _⟩
    · rw [hret] at hm
      obtain ⟨q, hq, hq1⟩ := List.mem_map.mp hm
      exact hnz q hq hq1
    · rw [hret] at he
      omega
  | closeDev h2 => simp [stepOp]
  | closeAll => simp [stepOp]

lemma runOps_next_handle_mono (s : EventLoopState) (ops : List RegOp) :
    s.next_handle ≤ (runOps s ops).1.next_handle := by
  induction ops generalizing s with
  | nil => exact le_refl _
  | cons op ops ih =>
    simp only [runOps]
    exact le_trans (stepOp_next_handle_mono s op) (ih (stepOp s op).1)

/-- C7 (amended): once a handle has been removed by close it is retired
forever: no later sequence of open/close/close_all operations ever
returns it again from open_device. The allocation counter never
decreases, and a fresh allocation (no existing slot matches) returns
exactly the counter and bumps it by one, so freshly allocated handles are
strictly increasing over time. (The full sequence of values returned by
open_device need not be non-decreasing, because open_device re-returns
the possibly smaller handle of an existing matching slot; see the
counterexample.) -/
theorem handles_never_reused (s : EventLoopState) (ops : List RegOp) (h : Int)
    (hr : handleRetired s h) :
    (handleRetired (runOps s ops).1 h ∧ some h ∉ (runOps s ops).2) ∧
    s.next_handle ≤ (runOps s ops).1.next_handle ∧
    (∀ vid pid ser dc,
      s.devices.find? (fun p => p.2.matches vid pid ser) = none →
      (open_device s vid pid ser dc).1 = s.next_handle ∧
      (open_device s vid pid ser dc).2.next_handle = s.next_handle + 1) := by
  refine ⟨?_, runOps_next_handle_mono s ops, ?_⟩
  · induction ops generalizing s with
    | nil =>
      refine ⟨hr, ?_⟩
      simp [runOps]
    | cons op ops ih =>
      have h1 := stepOp_retired s op h hr
      have h2 := stepOp_never_returns_retired s op h hr
      obtain ⟨ih1, ih2⟩ := ih (stepOp s op).1 h1
      refine ⟨ih1, ?_⟩
      simp only [runOps, List.mem_cons]
      rintro (hc | hc)
      · exact h2 hc.symm
      · exact ih2 hc
  · intro vid pid ser dc hf
    unfold open_device
    rw [hf]
    exact ⟨rfl, rfl⟩

/-- Retired-handle scenario for the C7 witness: handle 0 was issued and
closed (absent, counter already at 1). -/
def stC7 : EventLoopState := { devices := [], next_handle := 1 }

def opsC7w : List RegOp := [.openDev 1 1 none false, .closeDev 1]

theorem handles_never_reused_witness :
    (handleRetired (runOps stC7 opsC7w).1 0 ∧ some 0 ∉ (runOps stC7 opsC7w).2) ∧
    stC7.next_handle ≤ (runOps stC7 opsC7w).1.next_handle ∧
    (∀ vid pid ser dc,
      stC7.devices.find? (fun p => p.2.matches vid pid ser) = none →
      (open_device stC7 vid pid ser dc).1 = stC7.next_handle ∧
      (open_device stC7 vid pid ser dc).2.next_handle = stC7.next_handle + 1) :=
  handles_never_reused stC7 opsC7w 0 ⟨by decide, by decide⟩

/-- Trace refuting C7 as stated: open slot A, open slot B, then call
open_device again with slot A's criteria. The third call matches the
existing slot A and returns its old handle 0, after handle 1 was already
returned, so the sequence of handles returned by successful open_device
calls is 0, 1, 0 - not non-decreasing. -/
def opsC7 : List RegOp :=
  [.openDev 1 1 none false, .openDev 2 2 none false, .openDev 1 1 none false]

/-- Counterexample to C7 as stated: from the initial registry the trace
opsC7 makes open_device return the handles 0, 1, 0 in that order, which
is not a non-decreasing sequence. (No handle here was removed by close;
the re-returned handle 0 belongs to a still-open slot.) -/
theorem handles_nondecreasing_cex :
    (runOps initEventLoop opsC7).2 = [some 0, some 1, some 0] ∧
    ¬ List.Sorted (· ≤ ·) ((runOps initEventLoop opsC7).2.filterMap id) := by
  refine ⟨by decide, ?_⟩
  intro hs
  have h2 : ((runOps initEventLoop opsC7).2.filterMap id) = [0, 1, 0] := by decide
  rw [h2] at hs
  have := (List.pairwise_cons.mp (List.pairwise_cons.mp hs).2).1 0 (by simp)
  exact absurd this (by decide)

/-! Claim C2. -/

/-- Little-endian byte-list value. -/
def leNat (bs : List Nat) : Nat := bs.foldr (fun b acc => b + 256 * acc) 0

/-- bytemuck try_from_bytes for RdxUsbFsPacket (used in
RdxUsbFsHost::poll, src/host.rs line 156): succeeds exactly when the
buffer holds 64 bytes (the packed struct has alignment 1 and no invalid
bit patterns); fields are read little-endian at their repr(C, packed)
offsets: timestamp_ns at 0..8, arb_id at 8..12, dlc at 12, channel at 13,
flags at 14..16, data at 16..64. -/
def decodeFsPacket (buf : List Nat) : Option RdxUsbFsPacket :=
  if buf.length = 64 then
    some { timestamp_ns := leNat (buf.take 8)
           arb_id := leNat ((buf.drop 8).take 4)
           dlc := buf.getD 12 0
           channel := buf.getD 13 0
           flags := leNat ((buf.drop 14).take 2)
           data := buf.drop 16 }
  else none

/-- Inbound queue allocation of RdxUsbFsHost::open_device (src/host.rs,
lines 121-140): the loop `for i in 0..=icount` creates one AsyncHeapRb of
capacity rx_q_size per channel index 0..=icount - that is icount + 1
queues - where icount is the n_channels byte of the device-info reply. -/
def RdxUsbFsHost.open_device_queues (icount : Nat) (rx_q_size : Nat) : List FsQueue :=
  (List.range (icount + 1)).map (fun _ => { cap := rx_q_size, items := [] })

/-- Await-push of the inbound pump (`push(pkt).await.ok()` when
await_on_full is true, src/host.rs line 159): the pump suspends until
space exists, so the frame eventually lands at the back of the queue; the
suspension itself is not modelled. -/
def FsQueue.push_await (q : FsQueue) (x : RdxUsbFsPacket) : FsQueue :=
  { cap := q.cap, items := q.items ++ [x] }

/-- One completion step of RdxUsbFsHost::poll (src/host.rs, lines
153-167): decode the completed buffer; if it decodes and its channel
index is within the rx-queue vector, push it to that channel's queue
(awaiting space when await_on_full, else try_push which drops the frame
on a full queue). Returns the updated queues and whether the frame was
pushed to an inbound queue. -/
def pollStep (rx_queue : List FsQueue) (await_on_full : Bool) (buf : List Nat) :
    List FsQueue × Bool :=
  match decodeFsPacket buf with
  | none => (rx_queue, false)
  | some pkt =>
    if pkt.channel < rx_queue.length then
      let q := rx_queue.getD pkt.channel default
      if await_on_full then
        (rx_queue.set pkt.channel (q.push_await pkt), true)
      else
        match q.try_push pkt with
        | .ok q' => (rx_queue.set pkt.channel q', true)
        | .error _ => (rx_queue, false)
    else (rx_queue, false)

/-- The single outbound queue created by RdxUsbFsHost::write_poller via
RdxUsbFsWritePoller::new (src/host.rs, lines 187-190 and 210-214). -/
def RdxUsbFsHost.write_poller_queue (n_packets : Nat) : FsQueue :=
  { cap := n_packets, items := [] }

/-- A 64-byte completion buffer whose channel byte (offset 13) is 2 and
whose other bytes are zero. -/
def bufC2 : List Nat := List.replicate 12 0 ++ 0 :: 2 :: List.replicate 50 0

/-- Counterexample to C2 as stated: for a device reporting n_channels = 2,
session open allocates 3 inbound queues, not 2, and the inbound pump
pushes a decoded frame with channel = 2 even though the claim allows only
channels strictly below 2. -/
theorem session_queue_count_cex :
    (RdxUsbFsHost.open_device_queues 2 32).length ≠ 2 ∧
    (decodeFsPacket bufC2).map RdxUsbFsPacket.channel = some 2 ∧
    (pollStep (RdxUsbFsHost.open_device_queues 2 32) true bufC2).2 = true := by
  decide

/-- C2 (amended): for a device reporting n_channels = k, session open
allocates exactly k + 1 inbound bounded queues (one per channel index
0..=k) plus the write poller's one outbound queue, and the inbound pump
(with the await-on-full policy the poller uses) pushes a completed wire
frame to an inbound queue exactly when the buffer decodes and its channel
field is strictly less than k + 1. -/
theorem session_queue_count (k cap : Nat) (buf : List Nat) :
    (RdxUsbFsHost.open_device_queues k cap).length = k + 1 ∧
    RdxUsbFsHost.write_poller_queue cap = { cap := cap, items := [] } ∧
    ((pollStep (RdxUsbFsHost.open_device_queues k cap) true buf).2 = true ↔
      ∃ pkt, decodeFsPacket buf = some pkt ∧ pkt.channel < k + 1) := by
  have hlen : (RdxUsbFsHost.open_device_queues k cap).length = k + 1 := by
    simp [RdxUsbFsHost.open_device_queues]
  refine ⟨hlen, rfl, ?_⟩
  cases hd : decodeFsPacket buf with
  | none =>
    simp only [pollStep, hd]
    constructor
    · intro hc
      exact absurd hc (by simp)
    · rintro ⟨pkt, hp, _⟩
      exact Option.noConfusion hp
  | some pkt =>
    by_cases hc : pkt.channel < (RdxUsbFsHost.open_device_queues k cap).length
    · have h2 : (pollStep (RdxUsbFsHost.open_device_queues k cap) true buf).2 = true := by
        simp [pollStep, hd, hc]
      refine ⟨fun _ => ⟨pkt, rfl, ?_⟩, fun _ => h2⟩
      rw [hlen] at hc
      exact hc
    · have h2 : (pollStep (RdxUsbFsHost.open_device_queues k cap) true buf).2 = false := by
        simp [pollStep, hd, hc]
      constructor
      · intro hcontra
        rw [h2] at hcontra
        exact Bool.noConfusion hcontra
      · rintro ⟨pkt2, hp2, hlt⟩
        have hpe : pkt = pkt2 := Option.some.inj hp2
        subst hpe
        rw [hlen] at hc
        exact absurd hlt hc

theorem session_queue_count_witness :
    (RdxUsbFsHost.open_device_queues 1 4).length = 1 + 1 ∧
    RdxUsbFsHost.write_poller_queue 4 = { cap := 4, items := [] } ∧
    ((pollStep (RdxUsbFsHost.open_device_queues 1 4) true bufC2).2 = true ↔
      ∃ pkt, decodeFsPacket bufC2 = some pkt ∧ pkt.channel < 1 + 1) :=
  session_queue_count 1 4 bufC2

/-! Claim C3. -/

/-- Rx-queue size of every session the poller opens: the literal 32 in
`RdxUsbFsHost::open_device(dev_info, 32)` (src/event_loop.rs, line 231). -/
def device_poller_rx_q_size : Nat := 32

/-- Tx-queue size of every session the poller opens: the literal 32 in
`host.write_poller(32)` (src/event_loop.rs, line 232). -/
def device_poller_tx_q_size : Nat := 32

/-- Session queues produced for a device reporting icount channels, as a
function of the buf_size argument of rdxusb_open_device (src/c_api.rs,
lines 29-32). The c_api entry point passes buf_size on to
event_loop::open_device, but that function's signature
(src/event_loop.rs, line 296) has no buffer-size parameter, so the value
is dropped, and device_poller opens every session with the literal 32. -/
def abi_session_queues (_buf_size : Nat) (icount : Nat) : List FsQueue × FsQueue :=
  (RdxUsbFsHost.open_device_queues icount device_poller_rx_q_size,
   RdxUsbFsHost.write_poller_queue device_poller_tx_q_size)

/-- C3 is a code bug: every inbound queue and the outbound queue of every
session get capacity 32 no matter what buf_size the ABI caller passed
(the queues are independent of buf_size altogether), so a caller passing
the documented default 48 gets capacity 32, not 48. -/
theorem session_queue_capacity_ignores_buf_size :
    (∀ b k, ((abi_session_queues b k).1.all (fun q => q.cap == 32)) = true) ∧
    (∀ b k, (abi_session_queues b k).2.cap = 32) ∧
    (∀ b b2 k, abi_session_queues b k = abi_session_queues b2 k) ∧
    ((abi_session_queues 48 0).1.map FsQueue.cap = [32] ∧
      (abi_session_queues 48 0).2.cap = 32 ∧ (32 : Nat) ≠ 48) := by
  refine ⟨?_, fun b k => rfl, fun b b2 k => rfl, by decide, by decide, by decide⟩
  intro b k
  simp [abi_session_queues, RdxUsbFsHost.open_device_queues, List.all_eq_true,
    device_poller_rx_q_size]

/-! Claim C10. -/

/-- Watch publication `device.device_info_out.send_replace(Some(device_info))`
(src/event_loop.rs, lines 273 and 288), modelled as updating the slot's
latest watch value. -/
def send_replace (d : RegDevice) (info : DeviceInfoM) : RegDevice :=
  { d with watch := some info }

/-- Matching-slot iteration of the hotplug Connected arm
(src/event_loop.rs, lines 271-276) and of the per-device inner loop of
force_scan_devices (lines 286-291): walk the slot table, publish the
descriptor on the watch of the first slot whose criteria match, then
break. HashMap iteration order is modelled as list order; the
at-most-one-delivery property proved below holds for any fixed order. -/
def dispatch_device_info : List (Int × RegDevice) → DeviceInfoM → List (Int × RegDevice)
  | [], _ => []
  | p :: rest, info =>
    if p.2.matches_device_info info = true then (p.1, send_replace p.2 info) :: rest
    else p :: dispatch_device_info rest info

/-- Out-of-range default slot for positional indexing. -/
def slotDefault : Int × RegDevice :=
  (0, { vid := 0, pid := 0, serial_number := none, handle := none, watch := none })

lemma dispatch_device_info_pointwise (devs : List (Int × RegDevice)) (info : DeviceInfoM) :
    (dispatch_device_info devs info).length = devs.length ∧
    (∀ i, (dispatch_device_info devs info).getD i slotDefault ≠ devs.getD i slotDefault →
      ((devs.getD i slotDefault).2.matches_device_info info = true ∧
       (dispatch_device_info devs info).getD i slotDefault =
         ((devs.getD i slotDefault).1, send_replace (devs.getD i slotDefault).2 info) ∧
       ∀ j, j < i →
         ((devs.getD j slotDefault).2.matches_device_info info = false ∧
          (dispatch_device_info devs info).getD j slotDefault = devs.getD j slotDefault))) := by
  induction devs generalizing info with
  | nil =>
    refine ⟨rfl, ?_⟩
    intro i hi
    exact absurd rfl hi
  | cons p rest ih =>
    cases hm : p.2.matches_device_info info with
    | true =>
      have hred : dispatch_device_info (p :: rest) info = (p.1, send_replace p.2 info) :: rest := by
        unfold dispatch_device_info
        rw [if_pos hm]
      rw [hred]
      refine ⟨by simp, ?_⟩
      intro i hi
      cases i with
      | zero =>
        simp only [List.getD_cons_zero] at hi ⊢
        exact ⟨hm, by trivial, fun j hj => absurd hj (Nat.not_lt_zero j)⟩
      | succ i =>
        simp only [List.getD_cons_succ] at hi
        exact absurd rfl hi
    | false =>
      have hred : dispatch_device_info (p :: rest) info = p :: dispatch_device_info rest info := by
        simp only [dispatch_device_info]
        rw [if_neg (by simp [hm])]
      rw [hred]
      obtain ⟨ihlen, ihpt⟩ := ih info
      refine ⟨by simp [ihlen], ?_⟩
      intro i hi
      cases i with
      | zero =>
        simp only [List.getD_cons_zero] at hi
        exact absurd rfl hi
      | succ i =>
        simp only [List.getD_cons_succ] at hi ⊢
        obtain ⟨h1, h2, h3⟩ := ihpt i hi
        refine ⟨h1, h2, ?_⟩
        intro j hj
        cases j with
        | zero =>
          simp only [List.getD_cons_zero]
          exact ⟨hm, by trivial⟩
        | succ j =>
          simp only [List.getD_cons_succ]
          exact h3 j (Nat.lt_of_succ_lt_succ hj)

/-- C10: a device descriptor arriving by hotplug or rescan is published to
the watch of at most one slot: the table after dispatch has the same
length, any slot whose entry changed is the first slot matching the
descriptor (every earlier slot does not match and is unchanged, and the
change is exactly publishing the descriptor), and at most one entry
changes even when several slots match. -/
theorem hotplug_single_dispatch (devs : List (Int × RegDevice)) (info : DeviceInfoM) :
    (dispatch_device_info devs info).length = devs.length ∧
    (∀ i, (dispatch_device_info devs info).getD i slotDefault ≠ devs.getD i slotDefault →
      ((devs.getD i slotDefault).2.matches_device_info info = true ∧
       (dispatch_device_info devs info).getD i slotDefault =
         ((devs.getD i slotDefault).1, send_replace (devs.getD i slotDefault).2 info) ∧
       ∀ j, j < i →
         ((devs.getD j slotDefault).2.matches_device_info info = false ∧
          (dispatch_device_info devs info).getD j slotDefault = devs.getD j slotDefault))) ∧
    (∀ i j, (dispatch_device_info devs info).getD i slotDefault ≠ devs.getD i slotDefault →
      (dispatch_device_info devs info).getD j slotDefault ≠ devs.getD j slotDefault →
      i = j) := by
  obtain ⟨hlen, hpt⟩ := dispatch_device_info_pointwise devs info
  refine ⟨hlen, hpt, ?_⟩
  intro i j hi hj
  rcases Nat.lt_trichotomy i j with hij | hij | hij
  · obtain ⟨_, _, h3⟩ := hpt j hj
    exact absurd (h3 i hij).2 hi
  · exact hij
  · obtain ⟨_, _, h3⟩ := hpt i hi
    exact absurd (h3 j hij).2 hj

/-- Two slots that both match the same descriptor, for the C10 witness. -/
def devsC10 : List (Int × RegDevice) :=
  [(0, { vid := 1, pid := 2, serial_number := none, handle := none, watch := none }),
   (1, { vid := 1, pid := 2, serial_number := none, handle := none, watch := none })]

def infoC10 : DeviceInfoM := { vid := 1, pid := 2, serial := some "sn" }

theorem hotplug_single_dispatch_witness :
    (dispatch_device_info devsC10 infoC10).length = devsC10.length ∧
    (∀ i, (dispatch_device_info devsC10 infoC10).getD i slotDefault ≠ devsC10.getD i slotDefault →
      ((devsC10.getD i slotDefault).2.matches_device_info infoC10 = true ∧
       (dispatch_device_info devsC10 infoC10).getD i slotDefault =
         ((devsC10.getD i slotDefault).1, send_replace (devsC10.getD i slotDefault).2 infoC10) ∧
       ∀ j, j < i →
         ((devsC10.getD j slotDefault).2.matches_device_info infoC10 = false ∧
          (dispatch_device_info devsC10 infoC10).getD j slotDefault = devsC10.getD j slotDefault))) ∧
    (∀ i j, (dispatch_device_info devsC10 infoC10).getD i slotDefault ≠ devsC10.getD i slotDefault →
      (dispatch_device_info devsC10 infoC10).getD j slotDefault ≠ devsC10.getD j slotDefault →
      i = j) :=
  hotplug_single_dispatch devsC10 infoC10
